import Mathlib

/-
Verification of the IBM Model 4 parameter-estimation engine
(nltk/translate/ibm4.py).

Shallow embedding conventions:
- Python floats are modelled by exact rationals (ℚ); the arithmetic
  performed by the code (products, quotients, comparisons against the
  MIN_PROB floor) is exact in ℚ.
- Words and word classes are coded as naturals; a source word class of
  None (sentence-initial head case) is an Option ℕ.
- Python dict lookups that can raise KeyError (the word-class maps) are
  modelled as Option-valued lookups; a raised KeyError is a none result
  that propagates out of the computation.
- defaultdict-backed probability tables are modelled as total functions
  (the default value is the value of the function off the updated keys).
- The base-model helpers that ibm4.py imports (AlignmentInfo queries,
  the MIN_PROB constant, the base count accumulators and maximizers)
  are not part of the sources under verification; they are modelled
  from the spec, as marked on each definition.
-/

namespace IBM4

/-- Modelled from the spec: the strictly positive floor value used for
all probability tables and for underflow clamping (the reference
constant is 10 ^ (-12)). -/
def MIN_PROB : ℚ := 1 / 1000000000000

/-- Modelled from the spec: a fully specified candidate alignment for
one sentence pair.  alignment is the total map from target position j
(1-based; index 0 is an unused dummy) to source position i (0 = NULL);
src_sentence holds NULL at index 0 and the real source words at 1..l;
trg_sentence holds a dummy at index 0 and the target words at 1..m. -/
structure AlignmentInfo where
  alignment : List ℕ
  src_sentence : List ℕ
  trg_sentence : List ℕ

/-- Target sentence length m (the dummy at index 0 does not count). -/
def tlen (a : AlignmentInfo) : ℕ := a.trg_sentence.length - 1

/-- Source position aligned to target position j. -/
def alignOf (a : AlignmentInfo) (j : ℕ) : ℕ := a.alignment.getD j 0

/-- Modelled from the spec: the tablet of cept i, the ascending list of
target positions aligned to i. -/
def tablet (a : AlignmentInfo) (i : ℕ) : List ℕ :=
  (List.range' 1 (tlen a)).filter (fun j => alignOf a j = i)

/-- Modelled from the spec: fertility of source position i, the number
of target words aligned to i. -/
def fertility_of_i (a : AlignmentInfo) (i : ℕ) : ℕ := (tablet a i).length

/-- Modelled from the spec: whether target position j is the first word
of the tablet of its cept. -/
def is_head_word (a : AlignmentInfo) (j : ℕ) : Bool :=
  (tablet a (alignOf a j)).head? == some j

/-- Modelled from the spec: center of a cept, the ceiling of the mean
of its tablet positions; the sentence-initial anchor (no previous cept)
is position 0. -/
def center_of_cept (a : AlignmentInfo) : Option ℕ → ℤ
  | none => 0
  | some i => (((tablet a i).sum + (tablet a i).length - 1) / (tablet a i).length : ℕ)

/-- Modelled from the spec: the nearest lower-indexed cept with
fertility at least 1, or none for the sentence-initial case. -/
def previous_cept (a : AlignmentInfo) (j : ℕ) : Option ℕ :=
  ((List.range' 1 (alignOf a j - 1)).filter (fun k => ¬ fertility_of_i a k = 0)).getLast?

/-- Modelled from the spec: the target position preceding j inside the
tablet of the cept of j (meaningful only for non-head words). -/
def previous_in_tablet (a : AlignmentInfo) (j : ℕ) : ℕ :=
  (tablet a (alignOf a j)).getD ((tablet a (alignOf a j)).indexOf j - 1) 0

/-- Modelled from the spec: the recorded best alignment as 0-indexed
(target_index, source_index_or_none) pairs, NULL rendered as none. -/
def zero_indexed_alignment (a : AlignmentInfo) : List (ℕ × Option ℕ) :=
  (List.range' 1 (tlen a)).map
    (fun j => (j - 1, if alignOf a j = 0 then none else some (alignOf a j - 1)))

/-- One sentence pair of the corpus: target words, source words, and
the recorded (0-indexed) best alignment. -/
structure AlignedSent where
  words : List ℕ
  mots : List ℕ
  alignment : List (ℕ × Option ℕ)

/-- The six probability tables of IBMModel4 together with the stored
word-class maps.  Tables are total functions whose value off every
updated key is the defaultdict default. -/
structure State where
  translation_table : ℕ → ℕ → ℚ
  alignment_table : ℕ → ℕ → ℕ → ℕ → ℚ
  fertility_table : ℕ → ℕ → ℚ
  p1 : ℚ
  head_distortion_table : ℤ → Option ℕ → ℕ → ℚ
  non_head_distortion_table : ℤ → ℕ → ℚ
  src_classes : ℕ → Option ℕ
  trg_classes : ℕ → Option ℕ

/-- reset_probabilities: every probability table reverts to its
defaultdict default (the MIN_PROB floor; p1 to the base reset value
1/2, modelled from the spec for the base model part); the head and
non-head distortion resets are ibm4.py lines 237-255.  The stored
class maps are untouched. -/
def reset_probabilities (st : State) : State :=
  { st with
    translation_table := fun _ _ => MIN_PROB
    alignment_table := fun _ _ _ _ => MIN_PROB
    fertility_table := fun _ _ => MIN_PROB
    p1 := 1 / 2
    head_distortion_table := fun _ _ _ => MIN_PROB
    non_head_distortion_table := fun _ _ => MIN_PROB }

/-- Modelled from the spec: the length of the longest target sentence
of the corpus (0 for an empty corpus). -/
def longest_target_sentence_length (corpus : List AlignedSent) : ℕ :=
  (corpus.map (fun s => s.words.length)).foldl max 0

/-- Overwrite one whole sub-table head_distortion_table[dj] with the
constant v (the fresh defaultdict of set_uniform_probabilities). -/
def setHeadAt (tb : ℤ → Option ℕ → ℕ → ℚ) (d : ℤ) (v : ℚ) : ℤ → Option ℕ → ℕ → ℚ :=
  fun d2 s t => if d2 = d then v else tb d2 s t

/-- Overwrite one whole sub-table non_head_distortion_table[dj] with
the constant v. -/
def setNonHeadAt (tb : ℤ → ℕ → ℚ) (d : ℤ) (v : ℚ) : ℤ → ℕ → ℚ :=
  fun d2 t => if d2 = d then v else tb d2 t

/-- The uniform distortion value of set_uniform_probabilities:
1 / (2 * (max_m - 1)), or MIN_PROB when max_m <= 1. -/
def initialUniform (corpus : List AlignedSent) : ℚ :=
  if longest_target_sentence_length corpus ≤ 1 then MIN_PROB
  else 1 / (2 * ((longest_target_sentence_length corpus - 1 : ℕ) : ℚ))

/-- set_uniform_probabilities (ibm4.py lines 257-289): both distortion
tables get the uniform value 1 / (2 * (max_m - 1)) at every
displacement dj with 1 <= |dj| <= max_m - 1 (MIN_PROB when
max_m <= 1); the returned flag records whether the non-fatal
too-long-sentence diagnostic fired (initial_prob < MIN_PROB). -/
def set_uniform_probabilities (corpus : List AlignedSent) (st : State) : State × Bool :=
  let max_m := longest_target_sentence_length corpus
  let initial_prob := initialUniform corpus
  let warned := decide (initial_prob < MIN_PROB)
  let st2 := (List.range' 1 (max_m - 1)).foldl
    (fun s dj =>
      { s with
        head_distortion_table :=
          setHeadAt (setHeadAt s.head_distortion_table (dj : ℤ) initial_prob) (-(dj : ℤ)) initial_prob
        non_head_distortion_table :=
          setNonHeadAt (setNonHeadAt s.non_head_distortion_table (dj : ℤ) initial_prob) (-(dj : ℤ)) initial_prob })
    st
  (st2, warned)

/-- The running combination product of null_generation_term: after k of
the loop steps, the value of the factor
(m - null_fertility - i + 1) / i accumulated for i = 1..k, with
n = m - null_fertility. -/
def combProd (n : ℕ) : ℕ → ℚ
  | 0 => 1
  | k + 1 => combProd n k * (((n : ℚ) - k) / (k + 1))

/-- null_generation_term (ibm4.py lines 369-383): the binomial value
p1 ^ phi0 * p0 ^ (m - 2 phi0), clamped to MIN_PROB before the
combination factor (m - phi0 choose phi0) is applied. -/
def null_generation_term (a : AlignmentInfo) (p1v : ℚ) : ℚ :=
  let p0 := 1 - p1v
  let nf := fertility_of_i a 0
  let m := tlen a
  let value := p1v ^ nf * p0 ^ ((m : ℤ) - 2 * nf)
  if value < MIN_PROB then MIN_PROB else value * combProd (m - nf) nf

/-- The loop of fertility_term (ibm4.py lines 385-396): multiply in
factorial(phi_i) * fertility_table[phi_i][src_sentence[i]] for each
real source position, clamping to MIN_PROB as soon as the running
value drops below it. -/
def fertLoop (a : AlignmentInfo) (ftab : ℕ → ℕ → ℚ) : List ℕ → ℚ → ℚ
  | [], v => v
  | i :: rest, v =>
    let v2 := v * ((Nat.factorial (fertility_of_i a i) : ℚ) *
      ftab (fertility_of_i a i) (a.src_sentence.getD i 0))
    if v2 < MIN_PROB then MIN_PROB else fertLoop a ftab rest v2

/-- fertility_term (ibm4.py lines 385-396). -/
def fertility_term (a : AlignmentInfo) (ftab : ℕ → ℕ → ℚ) : ℚ :=
  fertLoop a ftab (List.range' 1 (a.src_sentence.length - 1)) 1

/-- lexical_translation_term (ibm4.py lines 398-402). -/
def lexical_translation_term (a : AlignmentInfo) (ttab : ℕ → ℕ → ℚ) (j : ℕ) : ℚ :=
  ttab (a.trg_sentence.getD j 0) (a.src_sentence.getD (alignOf a j) 0)

/-- distortion_term (ibm4.py lines 404-425): 1.0 for NULL-aligned j;
the head distortion lookup for a head word (source class none at the
sentence-initial case, a failed class-map lookup is a KeyError, i.e.
none); the non-head distortion lookup otherwise. -/
def distortion_term (a : AlignmentInfo) (st : State) (j : ℕ) : Option ℚ :=
  let t := a.trg_sentence.getD j 0
  let i := alignOf a j
  if i = 0 then some 1
  else if is_head_word a j then
    let pc := previous_cept a j
    match pc with
    | none =>
      match st.trg_classes t with
      | none => none
      | some tc => some (st.head_distortion_table ((j : ℤ) - center_of_cept a none) none tc)
    | some p =>
      match st.src_classes (a.src_sentence.getD p 0) with
      | none => none
      | some sc =>
        match st.trg_classes t with
        | none => none
        | some tc =>
          some (st.head_distortion_table ((j : ℤ) - center_of_cept a (some p)) (some sc) tc)
  else
    match st.trg_classes t with
    | none => none
    | some tc =>
      some (st.non_head_distortion_table ((j : ℤ) - (previous_in_tablet a j : ℤ)) tc)

/-- The per-position loop of model4_prob_t_a_given_s (ibm4.py lines
439-446): lexical factor, clamp check, distortion factor, clamp check,
in that order for each j; a clamp returns MIN_PROB without touching
the remaining positions. -/
def m4Loop (a : AlignmentInfo) (st : State) : List ℕ → ℚ → Option ℚ
  | [], prob => some prob
  | j :: rest, prob =>
    let prob1 := prob * lexical_translation_term a st.translation_table j
    if prob1 < MIN_PROB then some MIN_PROB
    else
      match distortion_term a st j with
      | none => none
      | some d =>
        let prob2 := prob1 * d
        if prob2 < MIN_PROB then some MIN_PROB else m4Loop a st rest prob2

/-- model4_prob_t_a_given_s (ibm4.py lines 364-448). -/
def model4_prob_t_a_given_s (a : AlignmentInfo) (st : State) : Option ℚ :=
  let prob0 := 1 * null_generation_term a st.p1
  if prob0 < MIN_PROB then some MIN_PROB
  else
    let prob1 := prob0 * fertility_term a st.fertility_table
    if prob1 < MIN_PROB then some MIN_PROB
    else m4Loop a st (List.range' 1 (tlen a)) prob1

/-- A finitely updated count accumulator: the list of keys touched so
far (the keys the Maximization step iterates over) and the total count
per key (0 off the touched keys, the defaultdict float default). -/
structure FinMapQ (κ : Type) [DecidableEq κ] where
  keys : List κ
  val : κ → ℚ

/-- The empty accumulator. -/
def FinMapQ.empty (κ : Type) [DecidableEq κ] : FinMapQ κ := ⟨[], fun _ => 0⟩

/-- Add c to the count of key k. -/
def FinMapQ.add {κ : Type} [DecidableEq κ] (m : FinMapQ κ) (k : κ) (c : ℚ) : FinMapQ κ :=
  ⟨if k ∈ m.keys then m.keys else k :: m.keys,
   fun k2 => if k2 = k then m.val k2 + c else m.val k2⟩

/-- Pointwise addition at one key of a plain denominator accumulator. -/
def bumpQ1 (f : ℕ → ℚ) (k : ℕ) (c : ℚ) : ℕ → ℚ :=
  fun k2 => if k2 = k then f k2 + c else f k2

/-- Pointwise addition at one key pair of the head-distortion
denominator accumulator. -/
def bumpQ2 (f : Option ℕ → ℕ → ℚ) (s : Option ℕ) (t : ℕ) (c : ℚ) : Option ℕ → ℕ → ℚ :=
  fun s2 t2 => if s2 = s ∧ t2 = t then f s2 t2 + c else f s2 t2

/-- Model4Counts (ibm4.py lines 451-464 for the distortion families;
the base families are modelled from the spec: one accumulator per
probability table plus matching normalization denominators). -/
structure Model4Counts where
  t_given_s : FinMapQ (ℕ × ℕ)
  any_t_given_s : ℕ → ℚ
  fertility : FinMapQ (ℕ × ℕ)
  fertility_for_any_phi : ℕ → ℚ
  p1c : ℚ
  p0c : ℚ
  head_distortion : FinMapQ (ℤ × Option ℕ × ℕ)
  head_distortion_for_any_dj : Option ℕ → ℕ → ℚ
  non_head_distortion : FinMapQ (ℤ × ℕ)
  non_head_distortion_for_any_dj : ℕ → ℚ

/-- The all-zero accumulator a train pass starts from. -/
def emptyCounts : Model4Counts :=
  ⟨FinMapQ.empty _, fun _ => 0, FinMapQ.empty _, fun _ => 0, 0, 0,
   FinMapQ.empty _, fun _ _ => 0, FinMapQ.empty _, fun _ => 0⟩

/-- Modelled from the spec: lexical-translation count update
(count how many times a source word translates into a target word,
plus the per-source denominator). -/
def update_lexical_translation (cs : Model4Counts) (c : ℚ) (a : AlignmentInfo) (j : ℕ) :
    Model4Counts :=
  let t := a.trg_sentence.getD j 0
  let s := a.src_sentence.getD (alignOf a j) 0
  { cs with
    t_given_s := cs.t_given_s.add (t, s) c
    any_t_given_s := bumpQ1 cs.any_t_given_s s c }

/-- update_distortion (ibm4.py lines 466-490): no update for a
NULL-aligned word; the head-distortion count keyed by displacement
from the previous cept center, previous source class (none when no
previous cept) and target class for a head; the non-head count keyed
by in-tablet displacement and target class otherwise.  A missing
class-map entry is a KeyError (none). -/
def update_distortion (cs : Model4Counts) (c : ℚ) (a : AlignmentInfo) (j : ℕ)
    (srcC trgC : ℕ → Option ℕ) : Option Model4Counts :=
  let i := alignOf a j
  let t := a.trg_sentence.getD j 0
  if i = 0 then some cs
  else if is_head_word a j then
    let pc := previous_cept a j
    let scRes : Option (Option ℕ) :=
      match pc with
      | none => some none
      | some p =>
        match srcC (a.src_sentence.getD p 0) with
        | none => none
        | some sc => some (some sc)
    match scRes with
    | none => none
    | some sc =>
      match trgC t with
      | none => none
      | some tc =>
        let dj := (j : ℤ) - center_of_cept a pc
        some { cs with
          head_distortion := cs.head_distortion.add (dj, sc, tc) c
          head_distortion_for_any_dj := bumpQ2 cs.head_distortion_for_any_dj sc tc c }
  else
    match trgC t with
    | none => none
    | some tc =>
      let dj := (j : ℤ) - (previous_in_tablet a j : ℤ)
      some { cs with
        non_head_distortion := cs.non_head_distortion.add (dj, tc) c
        non_head_distortion_for_any_dj := bumpQ1 cs.non_head_distortion_for_any_dj tc c }

/-- Modelled from the spec: null-generation count update, accumulating
the NULL-aligned word count and the complementary count entering the
p1 ratio. -/
def update_null_generation (cs : Model4Counts) (c : ℚ) (a : AlignmentInfo) : Model4Counts :=
  let nf := fertility_of_i a 0
  { cs with
    p1c := cs.p1c + (nf : ℚ) * c
    p0c := cs.p0c + (((tlen a : ℤ) - 2 * nf : ℤ) : ℚ) * c }

/-- Modelled from the spec: fertility count update, counting how often
each real source word carries each fertility, plus the per-source
denominator. -/
def update_fertility (cs : Model4Counts) (c : ℚ) (a : AlignmentInfo) : Model4Counts :=
  (List.range' 1 (a.src_sentence.length - 1)).foldl
    (fun cs i =>
      let s := a.src_sentence.getD i 0
      { cs with
        fertility := cs.fertility.add (fertility_of_i a i, s) c
        fertility_for_any_phi := bumpQ1 cs.fertility_for_any_phi s c })
    cs

/-- Write one translation-table entry. -/
def writeT2 (tb : ℕ → ℕ → ℚ) (t s : ℕ) (v : ℚ) : ℕ → ℕ → ℚ :=
  fun t2 s2 => if t2 = t ∧ s2 = s then v else tb t2 s2

/-- Write one head-distortion-table entry. -/
def writeHD (tb : ℤ → Option ℕ → ℕ → ℚ) (d : ℤ) (s : Option ℕ) (t : ℕ) (v : ℚ) :
    ℤ → Option ℕ → ℕ → ℚ :=
  fun d2 s2 t2 => if d2 = d ∧ s2 = s ∧ t2 = t then v else tb d2 s2 t2

/-- Write one non-head-distortion-table entry. -/
def writeNHD (tb : ℤ → ℕ → ℚ) (d : ℤ) (t : ℕ) (v : ℚ) : ℤ → ℕ → ℚ :=
  fun d2 t2 => if d2 = d ∧ t2 = t then v else tb d2 t2

/-- Modelled from the spec: the lexical Maximization rule, each touched
(t, s) entry recomputed as count / per-source denominator, clamped
below by MIN_PROB. -/
def maximize_lexical_translation_probabilities (c : Model4Counts) (st : State) : State :=
  { st with
    translation_table := c.t_given_s.keys.foldl
      (fun tb k => writeT2 tb k.1 k.2 (max (c.t_given_s.val k / c.any_t_given_s k.2) MIN_PROB))
      st.translation_table }

/-- maximize_distortion_probabilities (ibm4.py lines 337-355): each
touched head entry recomputed as
count[dj][s][t] / count_for_any_dj[s][t] and each touched non-head
entry as count[dj][t] / count_for_any_dj[t], both clamped below by
MIN_PROB. -/
def maximize_distortion_probabilities (c : Model4Counts) (st : State) : State :=
  { st with
    head_distortion_table := c.head_distortion.keys.foldl
      (fun tb k => writeHD tb k.1 k.2.1 k.2.2
        (max (c.head_distortion.val k / c.head_distortion_for_any_dj k.2.1 k.2.2) MIN_PROB))
      st.head_distortion_table
    non_head_distortion_table := c.non_head_distortion.keys.foldl
      (fun tb k => writeNHD tb k.1 k.2
        (max (c.non_head_distortion.val k / c.non_head_distortion_for_any_dj k.2) MIN_PROB))
      st.non_head_distortion_table }

/-- Modelled from the spec: the fertility Maximization rule, each
touched (phi, s) entry recomputed as count / per-source denominator,
clamped below by MIN_PROB. -/
def maximize_fertility_probabilities (c : Model4Counts) (st : State) : State :=
  { st with
    fertility_table := c.fertility.keys.foldl
      (fun tb k => writeT2 tb k.1 k.2 (max (c.fertility.val k / c.fertility_for_any_phi k.2) MIN_PROB))
      st.fertility_table }

/-- Modelled from the spec: p1 re-estimated as the corpus-wide ratio of
the NULL-aligned count to the total, clamped below by MIN_PROB. -/
def maximize_null_generation_probabilities (c : Model4Counts) (st : State) : State :=
  { st with p1 := max (c.p1c / (c.p1c + c.p0c)) MIN_PROB }

/-- The M step of train (ibm4.py lines 326-335): save the alignment
table, reset every table, restore the alignment table (never
retrained), then run the four Maximization families. -/
def mStep (c : Model4Counts) (st : State) : State :=
  let existing := st.alignment_table
  let st1 := reset_probabilities st
  let st2 := { st1 with alignment_table := existing }
  maximize_null_generation_probabilities c
    (maximize_fertility_probabilities c
      (maximize_distortion_probabilities c
        (maximize_lexical_translation_probabilities c st2)))

/-- The external hill-climbing sampler (out of scope, a black box):
given a sentence pair and the current state it returns the sampled
candidate alignments and the single best alignment. -/
def Sampler : Type :=
  AlignedSent → State → List AlignmentInfo × AlignmentInfo

/-- Modelled from the spec: the normalization constant of one sentence
pair, the sum of model scores over all sampled candidates. -/
def prob_of_alignments (st : State) (cands : List AlignmentInfo) : Option ℚ :=
  cands.foldlM (fun acc a => (model4_prob_t_a_given_s a st).map (fun v => acc + v)) 0

/-- The E step of train for one sentence pair (ibm4.py lines 293-324):
sample, record the best alignment on the sentence, normalize each
candidate score and feed the weighted counts into every accumulator
family (lexical then distortion per position, then null generation,
then fertility). -/
def sentenceEStep (sampler : Sampler) (st : State) (cs : Model4Counts) (sent : AlignedSent) :
    Option (Model4Counts × AlignedSent) :=
  let m := sent.words.length
  let sampled := (sampler sent st).1
  let best := (sampler sent st).2
  let sent2 := { sent with alignment := zero_indexed_alignment best }
  match prob_of_alignments st sampled with
  | none => none
  | some total =>
    match
      sampled.foldlM (fun cs a =>
        match model4_prob_t_a_given_s a st with
        | none => none
        | some count =>
          let nc := count / total
          match
            (List.range' 1 m).foldlM (fun cs j =>
              update_distortion (update_lexical_translation cs nc a j) nc a j
                st.src_classes st.trg_classes) cs
          with
          | none => none
          | some cs2 => some (update_fertility (update_null_generation cs2 nc a) nc a)) cs
    with
    | none => none
    | some cs3 => some (cs3, sent2)

/-- The E step of train over the whole corpus, threading the count
accumulator and collecting the updated sentences in order. -/
def collectCounts (sampler : Sampler) (corpus : List AlignedSent) (st : State) :
    Option (Model4Counts × List AlignedSent) :=
  corpus.foldlM
    (fun acc sent =>
      match sentenceEStep sampler st acc.1 sent with
      | none => none
      | some p => some (p.1, acc.2 ++ [p.2]))
    (emptyCounts, [])

/-- train (ibm4.py lines 291-335): one full E step over the corpus
followed by the M step; a KeyError anywhere aborts the pass (none). -/
def trainPass (sampler : Sampler) (corpus : List AlignedSent) (st : State) :
    Option (State × List AlignedSent) :=
  match collectCounts sampler corpus st with
  | none => none
  | some p => some (mStep p.1 st, p.2)

/-- The ways model construction can abort: a missing entry of an
explicitly supplied probability_tables dict, or a KeyError escaping a
training pass. -/
inductive InitError where
  | incompleteTables : InitError
  | keyError : InitError
deriving DecidableEq

/-- An explicitly supplied probability_tables argument: a dict that may
or may not hold each of the six required entries. -/
structure PTInput where
  translation_table : Option (ℕ → ℕ → ℚ)
  alignment_table : Option (ℕ → ℕ → ℕ → ℕ → ℚ)
  fertility_table : Option (ℕ → ℕ → ℚ)
  p1 : Option ℚ
  head_distortion_table : Option (ℤ → Option ℕ → ℕ → ℚ)
  non_head_distortion_table : Option (ℤ → ℕ → ℚ)

/-- The iteration loop at the end of IBMModel4.init (ibm4.py lines
234-235): run train n times sequentially, threading the state and the
corpus with its recorded alignments. -/
def trainLoop (sampler : Sampler) : List AlignedSent → State → ℕ →
    Except InitError (State × List AlignedSent)
  | corpus, st, 0 => .ok (st, corpus)
  | corpus, st, n + 1 =>
    match trainPass sampler corpus st with
    | none => .error .keyError
    | some p => trainLoop sampler p.2 p.1 n

/-- The external Model 3 seeding collaborator (out of scope): training
it yields a translation table, an alignment table, a fertility table
and p1. -/
def Seeder : Type :=
  List AlignedSent → ℕ → ((ℕ → ℕ → ℚ) × (ℕ → ℕ → ℕ → ℕ → ℚ) × (ℕ → ℕ → ℚ) × ℚ)

/-- IBMModel4.init (ibm4.py lines 170-235): reset, store the class
maps, then either seed from Model 3 plus uniform distortion tables, or
read all six entries of the supplied probability_tables (a missing
entry is fatal before training begins); finally run the requested
number of training passes. -/
def init (ibm3 : Seeder) (sampler : Sampler) (corpus : List AlignedSent) (iterations : ℕ)
    (srcC trgC : ℕ → Option ℕ) (ptables : Option PTInput) :
    Except InitError (State × List AlignedSent) :=
  let st0 : State :=
    { translation_table := fun _ _ => MIN_PROB
      alignment_table := fun _ _ _ _ => MIN_PROB
      fertility_table := fun _ _ => MIN_PROB
      p1 := 1 / 2
      head_distortion_table := fun _ _ _ => MIN_PROB
      non_head_distortion_table := fun _ _ => MIN_PROB
      src_classes := srcC
      trg_classes := trgC }
  match ptables with
  | none =>
    let seeded := ibm3 corpus iterations
    let st1 := { st0 with
      translation_table := seeded.1
      alignment_table := seeded.2.1
      fertility_table := seeded.2.2.1
      p1 := seeded.2.2.2 }
    trainLoop sampler corpus (set_uniform_probabilities corpus st1).1 iterations
  | some pt =>
    match pt.translation_table with
    | none => .error .incompleteTables
    | some tt =>
      match pt.alignment_table with
      | none => .error .incompleteTables
      | some att =>
        match pt.fertility_table with
        | none => .error .incompleteTables
        | some ft =>
          match pt.p1 with
          | none => .error .incompleteTables
          | some p1v =>
            match pt.head_distortion_table with
            | none => .error .incompleteTables
            | some hd =>
              match pt.non_head_distortion_table with
              | none => .error .incompleteTables
              | some nhd =>
                trainLoop sampler corpus
                  { st0 with
                    translation_table := tt
                    alignment_table := att
                    fertility_table := ft
                    p1 := p1v
                    head_distortion_table := hd
                    non_head_distortion_table := nhd }
                  iterations

/-- The spec-side evaluation scheme of the model probability: a
running product over an ordered list of factors (a none factor is a
raised KeyError), returning MIN_PROB immediately when the running
product falls below MIN_PROB after any multiplication, so that the
remaining factors never contribute. -/
def clampedProductO : List (Option ℚ) → ℚ → Option ℚ
  | [], acc => some acc
  | f :: rest, acc =>
    match f with
    | none => none
    | some x =>
      let acc2 := acc * x
      if acc2 < MIN_PROB then some MIN_PROB else clampedProductO rest acc2

/-- The spec-side factor list of the model probability: the
null-generation term, the fertility term, then for each target
position j in ascending order the lexical factor followed immediately
by the distortion factor for that j. -/
def m4Factors (a : AlignmentInfo) (st : State) : List (Option ℚ) :=
  some (null_generation_term a st.p1) ::
    some (fertility_term a st.fertility_table) ::
      (List.range' 1 (tlen a)).flatMap
        (fun j => [some (lexical_translation_term a st.translation_table j),
                   distortion_term a st j])

lemma m4Loop_eq_clampedProductO (a : AlignmentInfo) (st : State) :
    ∀ (js : List ℕ) (prob : ℚ),
      m4Loop a st js prob =
        clampedProductO
          (js.flatMap (fun j => [some (lexical_translation_term a st.translation_table j),
                                 distortion_term a st j])) prob := by
  intro js
  induction js with
  | nil => intro prob; rfl
  | cons j rest ih =>
    intro prob
    show m4Loop a st (j :: rest) prob = _
    rw [List.flatMap_cons]
    show _ = clampedProductO
      (some (lexical_translation_term a st.translation_table j) ::
        (distortion_term a st j ::
          rest.flatMap (fun j => [some (lexical_translation_term a st.translation_table j),
                                  distortion_term a st j]))) prob
    rw [m4Loop, clampedProductO]
    by_cases h1 : prob * lexical_translation_term a st.translation_table j < MIN_PROB
    · simp only [h1, if_pos]
    · simp only [h1, if_neg, if_false]
      cases hd : distortion_term a st j with
      | none => rfl
      | some d =>
        show (if prob * lexical_translation_term a st.translation_table j * d < MIN_PROB
              then some MIN_PROB
              else m4Loop a st rest (prob * lexical_translation_term a st.translation_table j * d)) = _
        rw [clampedProductO]
        by_cases h2 : prob * lexical_translation_term a st.translation_table j * d < MIN_PROB
        · simp only [h2, if_pos]
        · simp only [h2, if_neg, if_false]
          exact ih _

/-- C1: for every AlignmentInfo and every table state,
prob_t_a_given_s is the clamped running product, in order, of the
null-generation term, the fertility term, and per target position the
lexical then the distortion factor; and once the running product
falls below MIN_PROB after a multiplication the result is MIN_PROB
regardless of every remaining factor. -/
theorem prob_t_a_given_s_clamped_product :
    (∀ (a : AlignmentInfo) (st : State),
      model4_prob_t_a_given_s a st = clampedProductO (m4Factors a st) 1) ∧
    (∀ (x : ℚ) (fs fs2 : List (Option ℚ)) (acc : ℚ), acc * x < MIN_PROB →
      clampedProductO (some x :: fs) acc = clampedProductO (some x :: fs2) acc) := by
  constructor
  · intro a st
    rw [model4_prob_t_a_given_s, m4Factors, clampedProductO]
    by_cases h0 : 1 * null_generation_term a st.p1 < MIN_PROB
    · simp only [h0, if_pos]
    · simp only [h0, if_neg, if_false]
      rw [clampedProductO]
      by_cases h1 : 1 * null_generation_term a st.p1 * fertility_term a st.fertility_table < MIN_PROB
      · simp only [h1, if_pos]
      · simp only [h1, if_neg, if_false]
        exact m4Loop_eq_clampedProductO a st _ _
  · intro x fs fs2 acc h
    rw [clampedProductO, clampedProductO]
    simp only [h, if_pos]

/-- Witness for C1: with a zero lexical factor the running product
drops below MIN_PROB at once and the remaining factors are discarded. -/
theorem prob_t_a_given_s_clamped_product_witness :
    clampedProductO [some (0 : ℚ), some 5] 1 = clampedProductO [some (0 : ℚ), some 7] 1 :=
  prob_t_a_given_s_clamped_product.2 0 [some 5] [some 7] 1 (by norm_num [MIN_PROB])

lemma MIN_PROB_pos : 0 < MIN_PROB := by norm_num [MIN_PROB]

lemma m4Loop_ge (a : AlignmentInfo) (st : State) :
    ∀ (js : List ℕ) (prob v : ℚ), MIN_PROB ≤ prob →
      m4Loop a st js prob = some v → MIN_PROB ≤ v := by
  intro js
  induction js with
  | nil =>
    intro prob v hp h
    simp only [m4Loop, Option.some.injEq] at h
    exact h ▸ hp
  | cons j rest ih =>
    intro prob v hp h
    simp only [m4Loop] at h
    split at h
    · simp only [Option.some.injEq] at h
      exact h ▸ le_refl _
    · split at h
      · exact absurd h (by simp)
      · split at h
        · simp only [Option.some.injEq] at h
          exact h ▸ le_refl _
        · next h2 => exact ih _ _ (not_lt.mp h2) h

lemma model4_ge (a : AlignmentInfo) (st : State) (v : ℚ)
    (h : model4_prob_t_a_given_s a st = some v) : MIN_PROB ≤ v := by
  simp only [model4_prob_t_a_given_s] at h
  by_cases h0 : 1 * null_generation_term a st.p1 < MIN_PROB
  · rw [if_pos h0] at h
    simp only [Option.some.injEq] at h
    exact h ▸ le_refl _
  · rw [if_neg h0] at h
    by_cases h1 : 1 * null_generation_term a st.p1 * fertility_term a st.fertility_table < MIN_PROB
    · rw [if_pos h1] at h
      simp only [Option.some.injEq] at h
      exact h ▸ le_refl _
    · rw [if_neg h1] at h
      exact m4Loop_ge a st _ _ _ (not_lt.mp h1) h

lemma prob_of_alignments_ge (st : State) :
    ∀ (cands : List AlignmentInfo) (acc total : ℚ),
      (cands.foldlM (fun acc a => (model4_prob_t_a_given_s a st).map (fun v => acc + v)) acc
        = some total) →
      acc ≤ total ∧ (cands ≠ [] → acc + MIN_PROB ≤ total) := by
  intro cands
  induction cands with
  | nil =>
    intro acc total h
    simp only [List.foldlM_nil, Option.pure_def, Option.some.injEq] at h
    exact ⟨h ▸ le_refl _, fun hne => absurd rfl hne⟩
  | cons a rest ih =>
    intro acc total h
    simp only [List.foldlM_cons] at h
    cases hm : model4_prob_t_a_given_s a st with
    | none => rw [hm] at h; exact absurd h (by simp)
    | some v =>
      rw [hm] at h
      simp only [Option.map_some', Option.bind_eq_bind, Option.some_bind] at h
      have hv : MIN_PROB ≤ v := model4_ge a st v hm
      have hrec := ih (acc + v) total h
      constructor
      · calc acc ≤ acc + v := le_add_of_nonneg_right (le_trans MIN_PROB_pos.le hv)
          _ ≤ total := hrec.1
      · intro _
        calc acc + MIN_PROB ≤ acc + v := by linarith
          _ ≤ total := hrec.1

/-- C10: every value prob_t_a_given_s returns is at least MIN_PROB,
hence strictly positive, whatever the alignment and however degenerate
the tables; consequently the normalization denominator summed over a
nonempty candidate set is strictly positive. -/
theorem prob_t_a_given_s_ge_MIN_PROB :
    (∀ (a : AlignmentInfo) (st : State) (v : ℚ),
      model4_prob_t_a_given_s a st = some v → MIN_PROB ≤ v ∧ 0 < v) ∧
    (∀ (st : State) (cands : List AlignmentInfo) (total : ℚ), cands ≠ [] →
      prob_of_alignments st cands = some total → 0 < total) := by
  constructor
  · intro a st v h
    have hv := model4_ge a st v h
    exact ⟨hv, lt_of_lt_of_le MIN_PROB_pos hv⟩
  · intro st cands total hne h
    have := (prob_of_alignments_ge st cands 0 total h).2 hne
    have := MIN_PROB_pos
    linarith

/-- A one-word sentence pair with the target word aligned to NULL-free
position 1, used as a concrete evaluation point. -/
def exAlign : AlignmentInfo := ⟨[0, 1], [0, 7], [0, 5]⟩

/-- The trivial alignment of an empty target sentence. -/
def exAlignEmpty : AlignmentInfo := ⟨[0], [0], [0]⟩

/-- A concrete table state with every entry 1/2 and total class maps. -/
def exState : State :=
  ⟨fun _ _ => 1 / 2, fun _ _ _ _ => 1 / 2, fun _ _ => 1 / 2, 1 / 2,
   fun _ _ _ => 1 / 2, fun _ _ => 1 / 2, fun _ => some 0, fun _ => some 0⟩

lemma model4_exAlignEmpty : model4_prob_t_a_given_s exAlignEmpty exState = some 1 := by
  have h1 : null_generation_term exAlignEmpty exState.p1 = 1 := by
    have hf : fertility_of_i exAlignEmpty 0 = 0 := by decide
    have ht : tlen exAlignEmpty = 0 := by decide
    rw [null_generation_term, hf, ht]
    norm_num [MIN_PROB, combProd]
  have h2 : fertility_term exAlignEmpty exState.fertility_table = 1 := by
    rw [fertility_term]
    norm_num [exAlignEmpty, List.range', fertLoop]
  rw [model4_prob_t_a_given_s, h1, h2]
  have ht : tlen exAlignEmpty = 0 := by decide
  rw [ht]
  norm_num [MIN_PROB, List.range', m4Loop]

/-- Witness for C10 at a concrete alignment and state. -/
theorem prob_t_a_given_s_ge_MIN_PROB_witness :
    (MIN_PROB ≤ (1 : ℚ) ∧ 0 < (1 : ℚ)) ∧ 0 < (1 : ℚ) := by
  constructor
  · exact prob_t_a_given_s_ge_MIN_PROB.1 exAlignEmpty exState 1 model4_exAlignEmpty
  · refine prob_t_a_given_s_ge_MIN_PROB.2 exState [exAlignEmpty] 1 (by simp) ?_
    rw [prob_of_alignments]
    simp only [List.foldlM_cons, List.foldlM_nil, model4_exAlignEmpty, Option.map_some,
      Option.some_bind, Option.pure_def]
    norm_num

lemma combProd_eq_choose (n : ℕ) : ∀ (k : ℕ), combProd n k = (n.choose k : ℚ) := by
  intro k
  induction k with
  | zero => simp [combProd]
  | succ k ih =>
    rw [combProd, ih]
    have hkey : (n.choose (k + 1) : ℚ) * ((k : ℚ) + 1) = (n.choose k : ℚ) * ((n : ℚ) - k) := by
      by_cases hk : k ≤ n
      · have h := Nat.choose_succ_right_eq n k
        have hcast : ((n.choose (k + 1)) : ℚ) * (((k + 1) : ℕ) : ℚ) =
            ((n.choose k) : ℚ) * (((n - k) : ℕ) : ℚ) := by exact_mod_cast h
        rw [Nat.cast_sub hk] at hcast
        push_cast at hcast
        linarith [hcast]
      · push_neg at hk
        rw [Nat.choose_eq_zero_of_lt hk, Nat.choose_eq_zero_of_lt (Nat.lt_succ_of_lt hk)]
        simp
    have hne : ((k : ℚ) + 1) ≠ 0 := by positivity
    rw [← mul_div_assoc, ← hkey, mul_div_assoc, div_self hne, mul_one]

/-- The binomial expression the spec states for the null-generation
term: C(m - phi0, phi0) * p1 ^ phi0 * p0 ^ (m - 2 phi0). -/
def nullGenClaimed (a : AlignmentInfo) (p1v : ℚ) : ℚ :=
  (Nat.choose (tlen a - fertility_of_i a 0) (fertility_of_i a 0) : ℚ) *
    p1v ^ (fertility_of_i a 0) *
    (1 - p1v) ^ ((tlen a : ℤ) - 2 * (fertility_of_i a 0 : ℤ))

/-- C4 amended: the null-generation term equals the spec's binomial
expression except when the partial product p1 ^ phi0 * p0 ^ (m - 2
phi0) already falls below MIN_PROB, in which case the term is clamped
to MIN_PROB before the combination factor is applied. -/
theorem null_generation_term_amended :
    ∀ (a : AlignmentInfo) (p1v : ℚ),
      null_generation_term a p1v =
        if p1v ^ (fertility_of_i a 0) *
            (1 - p1v) ^ ((tlen a : ℤ) - 2 * (fertility_of_i a 0 : ℤ)) < MIN_PROB
        then MIN_PROB
        else nullGenClaimed a p1v := by
  intro a p1v
  rw [null_generation_term, nullGenClaimed]
  by_cases h : p1v ^ (fertility_of_i a 0) *
      (1 - p1v) ^ ((tlen a : ℤ) - 2 * (fertility_of_i a 0 : ℤ)) < MIN_PROB
  · rw [if_pos h, if_pos h]
  · rw [if_neg h, if_neg h, combProd_eq_choose]
    ring

/-- A concrete alignment with one NULL-aligned target word and one
word aligned to source position 1 (m = 2, phi0 = 1). -/
def cexAlign : AlignmentInfo := ⟨[0, 0, 1], [0, 9], [0, 4, 5]⟩

/-- Counterexample for C4: with p1 = 10 ^ (-13) the partial product
falls below MIN_PROB, the combination factor is skipped, and the
returned MIN_PROB differs from the spec's binomial expression. -/
theorem null_generation_term_cex :
    null_generation_term cexAlign (1 / 10000000000000) ≠
      nullGenClaimed cexAlign (1 / 10000000000000) := by
  have hf : fertility_of_i cexAlign 0 = 1 := by decide
  have ht : tlen cexAlign = 2 := by decide
  rw [null_generation_term, nullGenClaimed, hf, ht]
  norm_num [MIN_PROB, combProd]

/-- C9: the distortion factor of target position j is 1 when j is
NULL-aligned; the head-distortion lookup at displacement j minus the
previous cept center, keyed by the previous cept's source class (none
at the sentence-initial case) and j's target class, when j heads its
tablet; and the non-head lookup at displacement j minus the previous
in-tablet position, keyed by j's target class, otherwise. -/
theorem distortion_term_cases :
    ∀ (a : AlignmentInfo) (st : State) (j : ℕ),
      (alignOf a j = 0 → distortion_term a st j = some 1) ∧
      (¬ alignOf a j = 0 → is_head_word a j = true →
        ∀ tc, st.trg_classes (a.trg_sentence.getD j 0) = some tc →
          (previous_cept a j = none →
            distortion_term a st j =
              some (st.head_distortion_table ((j : ℤ) - center_of_cept a none) none tc)) ∧
          (∀ p sc, previous_cept a j = some p →
            st.src_classes (a.src_sentence.getD p 0) = some sc →
            distortion_term a st j =
              some (st.head_distortion_table ((j : ℤ) - center_of_cept a (some p)) (some sc) tc))) ∧
      (¬ alignOf a j = 0 → is_head_word a j = false →
        ∀ tc, st.trg_classes (a.trg_sentence.getD j 0) = some tc →
          distortion_term a st j =
            some (st.non_head_distortion_table
              ((j : ℤ) - (previous_in_tablet a j : ℤ)) tc)) := by
  intro a st j
  refine ⟨?_, ?_, ?_⟩
  · intro h
    simp only [distortion_term, h, if_pos]
  · intro h hhead tc htc
    constructor
    · intro hpc
      simp only [distortion_term, h, if_false, hhead, if_true, hpc, htc, if_neg]
    · intro p sc hpc hsc
      simp only [distortion_term, h, if_false, hhead, if_true, hpc, hsc, htc, if_neg]
  · intro h hhead tc htc
    simp only [distortion_term, h, if_false, hhead, htc, if_neg, Bool.false_eq_true]

/-- Witness for C9: a NULL-aligned position has distortion factor 1. -/
theorem distortion_term_cases_witness :
    distortion_term cexAlign exState 1 = some 1 :=
  (distortion_term_cases cexAlign exState 1).1 (by decide)

lemma foldl_writeHD_ge (f : (ℤ × Option ℕ × ℕ) → ℚ) (hf : ∀ k, MIN_PROB ≤ f k) :
    ∀ (ks : List (ℤ × Option ℕ × ℕ)) (tb : ℤ → Option ℕ → ℕ → ℚ),
      (∀ d s t, MIN_PROB ≤ tb d s t) →
      ∀ d s t, MIN_PROB ≤ (ks.foldl (fun tb k => writeHD tb k.1 k.2.1 k.2.2 (f k)) tb) d s t := by
  intro ks
  induction ks with
  | nil => intro tb htb d s t; exact htb d s t
  | cons k rest ih =>
    intro tb htb d s t
    rw [List.foldl_cons]
    refine ih _ ?_ d s t
    intro d2 s2 t2
    rw [writeHD]
    by_cases hc : d2 = k.1 ∧ s2 = k.2.1 ∧ t2 = k.2.2
    · rw [if_pos hc]; exact hf k
    · rw [if_neg hc]; exact htb d2 s2 t2

lemma foldl_writeNHD_ge (f : (ℤ × ℕ) → ℚ) (hf : ∀ k, MIN_PROB ≤ f k) :
    ∀ (ks : List (ℤ × ℕ)) (tb : ℤ → ℕ → ℚ),
      (∀ d t, MIN_PROB ≤ tb d t) →
      ∀ d t, MIN_PROB ≤ (ks.foldl (fun tb k => writeNHD tb k.1 k.2 (f k)) tb) d t := by
  intro ks
  induction ks with
  | nil => intro tb htb d t; exact htb d t
  | cons k rest ih =>
    intro tb htb d t
    rw [List.foldl_cons]
    refine ih _ ?_ d t
    intro d2 t2
    rw [writeNHD]
    by_cases hc : d2 = k.1 ∧ t2 = k.2
    · rw [if_pos hc]; exact hf k
    · rw [if_neg hc]; exact htb d2 t2

/-- C2: after the Maximization step of any train pass, every head
and non-head distortion entry, at every key assigned or not, is at
least MIN_PROB: the tables are reset to the MIN_PROB default and every
recomputed entry is clamped by max with MIN_PROB. -/
theorem distortion_tables_ge_MIN_PROB :
    ∀ (c : Model4Counts) (st : State) (dj : ℤ) (s : Option ℕ) (t : ℕ) (dj2 : ℤ) (t2 : ℕ),
      MIN_PROB ≤ (mStep c st).head_distortion_table dj s t ∧
      MIN_PROB ≤ (mStep c st).non_head_distortion_table dj2 t2 := by
  intro c st dj s t dj2 t2
  constructor
  · exact foldl_writeHD_ge
      (fun k => max (c.head_distortion.val k / c.head_distortion_for_any_dj k.2.1 k.2.2) MIN_PROB)
      (fun k => le_max_right _ _)
      c.head_distortion.keys (fun _ _ _ => MIN_PROB) (fun _ _ _ => le_refl _) dj s t
  · exact foldl_writeNHD_ge
      (fun k => max (c.non_head_distortion.val k / c.non_head_distortion_for_any_dj k.2) MIN_PROB)
      (fun k => le_max_right _ _)
      c.non_head_distortion.keys (fun _ _ => MIN_PROB) (fun _ _ => le_refl _) dj2 t2

lemma double_set_lookup (ip v : ℚ) (x : ℕ) (hx : 1 ≤ x) (dj : ℤ) (xs : List ℕ)
    (h1 : ¬ (dj.natAbs ∈ xs ∧ ¬ dj = 0)) :
    (if dj = -(x : ℤ) then ip else if dj = (x : ℤ) then ip else v) =
      (if dj.natAbs ∈ x :: xs ∧ ¬ dj = 0 then ip else v) := by
  by_cases h2 : dj = -(x : ℤ)
  · have hc : dj.natAbs ∈ x :: xs ∧ ¬ dj = 0 := by
      refine ⟨?_, by omega⟩
      have he : dj.natAbs = x := by omega
      rw [he]
      exact List.mem_cons_self x xs
    rw [if_pos h2, if_pos hc]
  · by_cases h3 : dj = (x : ℤ)
    · have hc : dj.natAbs ∈ x :: xs ∧ ¬ dj = 0 := by
        refine ⟨?_, by omega⟩
        have he : dj.natAbs = x := by omega
        rw [he]
        exact List.mem_cons_self x xs
      rw [if_neg h2, if_pos h3, if_pos hc]
    · have hc : ¬ (dj.natAbs ∈ x :: xs ∧ ¬ dj = 0) := by
        rintro ⟨hmem, hne⟩
        rcases List.mem_cons.mp hmem with he | he
        · omega
        · exact h1 ⟨he, hne⟩
      rw [if_neg h2, if_neg h3, if_neg hc]

lemma setUniform_foldl_lookup (ip : ℚ) :
    ∀ (l : List ℕ) (st : State), (∀ x ∈ l, 1 ≤ x) →
      ∀ (dj : ℤ) (s : Option ℕ) (t : ℕ),
        ((l.foldl
            (fun s dj =>
              { s with
                head_distortion_table :=
                  setHeadAt (setHeadAt s.head_distortion_table (dj : ℤ) ip) (-(dj : ℤ)) ip
                non_head_distortion_table :=
                  setNonHeadAt (setNonHeadAt s.non_head_distortion_table (dj : ℤ) ip) (-(dj : ℤ)) ip })
            st).head_distortion_table dj s t =
          if dj.natAbs ∈ l ∧ ¬ dj = 0 then ip else st.head_distortion_table dj s t) ∧
        ((l.foldl
            (fun s dj =>
              { s with
                head_distortion_table :=
                  setHeadAt (setHeadAt s.head_distortion_table (dj : ℤ) ip) (-(dj : ℤ)) ip
                non_head_distortion_table :=
                  setNonHeadAt (setNonHeadAt s.non_head_distortion_table (dj : ℤ) ip) (-(dj : ℤ)) ip })
            st).non_head_distortion_table dj t =
          if dj.natAbs ∈ l ∧ ¬ dj = 0 then ip else st.non_head_distortion_table dj t) := by
  intro l
  induction l with
  | nil =>
    intro st hal dj s t
    constructor <;> simp
  | cons x xs ih =>
    intro st hal dj s t
    have hx : 1 ≤ x := hal x (List.mem_cons_self x xs)
    have hxs : ∀ y ∈ xs, 1 ≤ y := fun y hy => hal y (List.mem_cons_of_mem x hy)
    rw [List.foldl_cons]
    have hrec := ih
      ({ st with
        head_distortion_table :=
          setHeadAt (setHeadAt st.head_distortion_table (x : ℤ) ip) (-(x : ℤ)) ip
        non_head_distortion_table :=
          setNonHeadAt (setNonHeadAt st.non_head_distortion_table (x : ℤ) ip) (-(x : ℤ)) ip })
      hxs dj s t
    by_cases h1 : dj.natAbs ∈ xs ∧ ¬ dj = 0
    · have hcons : dj.natAbs ∈ x :: xs ∧ ¬ dj = 0 :=
        ⟨List.mem_cons_of_mem x h1.1, h1.2⟩
      rw [if_pos h1, if_pos h1] at hrec
      constructor
      · rw [hrec.1, if_pos hcons]
      · rw [hrec.2, if_pos hcons]
    · rw [if_neg h1, if_neg h1] at hrec
      constructor
      · rw [hrec.1]
        simp only [setHeadAt]
        exact double_set_lookup ip (st.head_distortion_table dj s t) x hx dj xs h1
      · rw [hrec.2]
        simp only [setNonHeadAt]
        exact double_set_lookup ip (st.non_head_distortion_table dj t) x hx dj xs h1


/-- C5: uniform seeding gives every nonzero displacement dj with
|dj| <= max_m - 1, at every class pair, the value 1 / (2 (max_m - 1))
in both distortion tables (MIN_PROB when max_m <= 1), and the
non-fatal diagnostic flag fires exactly when that uniform value is
below MIN_PROB; the updated state is returned either way. -/
theorem set_uniform_probabilities_spec :
    ∀ (corpus : List AlignedSent) (st : State),
      (∀ (dj : ℤ) (s : Option ℕ) (t : ℕ), ¬ dj = 0 →
        dj.natAbs ≤ longest_target_sentence_length corpus - 1 →
        (set_uniform_probabilities corpus st).1.head_distortion_table dj s t =
          initialUniform corpus) ∧
      (∀ (dj : ℤ) (t : ℕ), ¬ dj = 0 →
        dj.natAbs ≤ longest_target_sentence_length corpus - 1 →
        (set_uniform_probabilities corpus st).1.non_head_distortion_table dj t =
          initialUniform corpus) ∧
      ((set_uniform_probabilities corpus st).2 = true ↔ initialUniform corpus < MIN_PROB) ∧
      (longest_target_sentence_length corpus ≤ 1 → initialUniform corpus = MIN_PROB) := by
  intro corpus st
  have hmem : ∀ dj : ℤ, ¬ dj = 0 →
      dj.natAbs ≤ longest_target_sentence_length corpus - 1 →
      dj.natAbs ∈ List.range' 1 (longest_target_sentence_length corpus - 1) := by
    intro dj h0 hle
    rw [List.mem_range']
    exact ⟨dj.natAbs - 1, by omega, by omega⟩
  have hall : ∀ x ∈ List.range' 1 (longest_target_sentence_length corpus - 1), 1 ≤ x := by
    intro x hxm
    rw [List.mem_range'] at hxm
    omega
  have hlook := setUniform_foldl_lookup (initialUniform corpus)
    (List.range' 1 (longest_target_sentence_length corpus - 1)) st hall
  refine ⟨?_, ?_, ?_, ?_⟩
  · intro dj s t h0 hle
    have h := (hlook dj s t).1
    rw [if_pos ⟨hmem dj h0 hle, h0⟩] at h
    exact h
  · intro dj t h0 hle
    have h := (hlook dj none t).2
    rw [if_pos ⟨hmem dj h0 hle, h0⟩] at h
    exact h
  · show decide (initialUniform corpus < MIN_PROB) = true ↔ initialUniform corpus < MIN_PROB
    simp
  · intro h
    rw [initialUniform, if_pos h]

/-- A tiny corpus whose longest target sentence has two words. -/
def exCorpus : List AlignedSent := [⟨[1, 2], [3], []⟩]

/-- Witness for C5: on the two-word corpus the uniform value is
1 / 2 and both tables carry it at displacement 1 and -1. -/
theorem set_uniform_probabilities_spec_witness :
    (set_uniform_probabilities exCorpus exState).1.head_distortion_table 1 none 0 = 1 / 2 ∧
    (set_uniform_probabilities exCorpus exState).1.non_head_distortion_table (-1) 4 = 1 / 2 := by
  have h := set_uniform_probabilities_spec exCorpus exState
  have h1 := h.1 1 none 0 (by decide) (by decide)
  have h2 := h.2.1 (-1) 4 (by decide) (by decide)
  have hip : initialUniform exCorpus = 1 / 2 := by
    rw [initialUniform]
    norm_num [longest_target_sentence_length, exCorpus]
  rw [h1, h2, hip]
  exact ⟨rfl, rfl⟩


lemma mStep_eq (c : Model4Counts) (st : State) :
    mStep c st =
      { translation_table := c.t_given_s.keys.foldl
          (fun tb k => writeT2 tb k.1 k.2 (max (c.t_given_s.val k / c.any_t_given_s k.2) MIN_PROB))
          (fun _ _ => MIN_PROB)
        alignment_table := st.alignment_table
        fertility_table := c.fertility.keys.foldl
          (fun tb k => writeT2 tb k.1 k.2 (max (c.fertility.val k / c.fertility_for_any_phi k.2) MIN_PROB))
          (fun _ _ => MIN_PROB)
        p1 := max (c.p1c / (c.p1c + c.p0c)) MIN_PROB
        head_distortion_table := c.head_distortion.keys.foldl
          (fun tb k => writeHD tb k.1 k.2.1 k.2.2
            (max (c.head_distortion.val k / c.head_distortion_for_any_dj k.2.1 k.2.2) MIN_PROB))
          (fun _ _ _ => MIN_PROB)
        non_head_distortion_table := c.non_head_distortion.keys.foldl
          (fun tb k => writeNHD tb k.1 k.2
            (max (c.non_head_distortion.val k / c.non_head_distortion_for_any_dj k.2) MIN_PROB))
          (fun _ _ => MIN_PROB)
        src_classes := st.src_classes
        trg_classes := st.trg_classes } := rfl

/-- C6: a train pass never changes the alignment table (the M step
saves it across the reset and never recomputes it), while every other
table of the M step output is a function of the pass counts and the
stored class maps alone, i.e. the previous translation, fertility, p1
and distortion values are discarded and replaced. -/
theorem train_frame :
    (∀ (sampler : Sampler) (corpus : List AlignedSent) (st : State),
      Option.map (fun p => p.1.alignment_table) (trainPass sampler corpus st) =
        Option.map (fun _ => st.alignment_table) (trainPass sampler corpus st)) ∧
    (∀ (c : Model4Counts) (st1 st2 : State),
      st1.alignment_table = st2.alignment_table →
      st1.src_classes = st2.src_classes →
      st1.trg_classes = st2.trg_classes →
      mStep c st1 = mStep c st2) := by
  constructor
  · intro sampler corpus st
    rw [trainPass]
    cases h : collectCounts sampler corpus st with
    | none => rfl
    | some p =>
      simp only [Option.map_some']
      rw [mStep_eq]
  · intro c st1 st2 h1 h2 h3
    rw [mStep_eq, mStep_eq, h1, h2, h3]

/-- Witness for C6: the M step output is unchanged when only the
discarded p1 seed differs. -/
theorem train_frame_witness :
    mStep emptyCounts exState = mStep emptyCounts { exState with p1 := 7 } :=
  train_frame.2 emptyCounts exState { exState with p1 := 7 } rfl rfl rfl

/-- C7: constructing the model with iterations = 0 and a complete
explicit probability_tables value runs no training pass and stores
exactly the six supplied tables (and the class maps); the corpus is
returned untouched. -/
theorem init_zero_iterations :
    ∀ (ibm3 : Seeder) (sampler : Sampler) (corpus : List AlignedSent)
      (srcC trgC : ℕ → Option ℕ) (tt : ℕ → ℕ → ℚ) (att : ℕ → ℕ → ℕ → ℕ → ℚ)
      (ft : ℕ → ℕ → ℚ) (p1v : ℚ) (hd : ℤ → Option ℕ → ℕ → ℚ) (nhd : ℤ → ℕ → ℚ),
      init ibm3 sampler corpus 0 srcC trgC
        (some ⟨some tt, some att, some ft, some p1v, some hd, some nhd⟩) =
        Except.ok
          ({ translation_table := tt, alignment_table := att, fertility_table := ft,
             p1 := p1v, head_distortion_table := hd, non_head_distortion_table := nhd,
             src_classes := srcC, trg_classes := trgC }, corpus) := by
  intro ibm3 sampler corpus srcC trgC tt att ft p1v hd nhd
  rfl

lemma trainLoop_ne_incomplete (sampler : Sampler) :
    ∀ (n : ℕ) (corpus : List AlignedSent) (st : State),
      trainLoop sampler corpus st n ≠ .error .incompleteTables := by
  intro n
  induction n with
  | zero =>
    intro corpus st h
    exact Except.noConfusion h
  | succ n ih =>
    intro corpus st h
    rw [trainLoop] at h
    cases htp : trainPass sampler corpus st with
    | none =>
      rw [htp] at h
      exact InitError.noConfusion (Except.error.inj h)
    | some p =>
      rw [htp] at h
      exact ih p.2 p.1 h

/-- C8: an explicit probability_tables argument missing any of the six
required entries makes construction fail with the incomplete-tables
error before any training pass; with all six entries present that
error never occurs, whatever the iteration count. -/
theorem init_requires_six_tables :
    (∀ (ibm3 : Seeder) (sampler : Sampler) (corpus : List AlignedSent) (iterations : ℕ)
        (srcC trgC : ℕ → Option ℕ) (pt : PTInput),
      (pt.translation_table = none ∨ pt.alignment_table = none ∨ pt.fertility_table = none ∨
        pt.p1 = none ∨ pt.head_distortion_table = none ∨ pt.non_head_distortion_table = none) →
      init ibm3 sampler corpus iterations srcC trgC (some pt) = .error .incompleteTables) ∧
    (∀ (ibm3 : Seeder) (sampler : Sampler) (corpus : List AlignedSent) (iterations : ℕ)
        (srcC trgC : ℕ → Option ℕ) (tt : ℕ → ℕ → ℚ) (att : ℕ → ℕ → ℕ → ℕ → ℚ)
        (ft : ℕ → ℕ → ℚ) (p1v : ℚ) (hd : ℤ → Option ℕ → ℕ → ℚ) (nhd : ℤ → ℕ → ℚ),
      init ibm3 sampler corpus iterations srcC trgC
        (some ⟨some tt, some att, some ft, some p1v, some hd, some nhd⟩) ≠
        .error .incompleteTables) := by
  constructor
  · intro ibm3 sampler corpus iterations srcC trgC pt h
    rcases pt with ⟨f1, f2, f3, f4, f5, f6⟩
    dsimp only at h
    rcases h with h | h | h | h | h | h
    · subst h; rfl
    · subst h; cases f1 <;> rfl
    · subst h; cases f1 <;> cases f2 <;> rfl
    · subst h; cases f1 <;> cases f2 <;> cases f3 <;> rfl
    · subst h; cases f1 <;> cases f2 <;> cases f3 <;> cases f4 <;> rfl
    · subst h; cases f1 <;> cases f2 <;> cases f3 <;> cases f4 <;> cases f5 <;> rfl
  · intro ibm3 sampler corpus iterations srcC trgC tt att ft p1v hd nhd
    exact trainLoop_ne_incomplete sampler iterations corpus _

/-- A seeding stub for concrete evaluations. -/
def exSeeder : Seeder := fun _ _ => (fun _ _ => 0, fun _ _ _ _ => 0, fun _ _ => 0, 0)

/-- A sampler stub returning no candidates. -/
def exSampler : Sampler := fun _ _ => ([], ⟨[], [], []⟩)

/-- A complete explicit probability_tables value. -/
def exPTFull : PTInput :=
  ⟨some (fun _ _ => 1 / 2), some (fun _ _ _ _ => 1 / 2), some (fun _ _ => 1 / 2),
   some (1 / 2), some (fun _ _ _ => 1 / 2), some (fun _ _ => 1 / 2)⟩

/-- Witness for C8: a fully missing dict is rejected, a complete one is
not rejected for incompleteness. -/
theorem init_requires_six_tables_witness :
    init exSeeder exSampler [] 0 (fun _ => some 0) (fun _ => some 0)
      (some ⟨none, none, none, none, none, none⟩) = .error .incompleteTables ∧
    init exSeeder exSampler [] 0 (fun _ => some 0) (fun _ => some 0)
      (some exPTFull) ≠ .error .incompleteTables :=
  ⟨init_requires_six_tables.1 exSeeder exSampler [] 0 _ _ ⟨none, none, none, none, none, none⟩
      (Or.inl rfl),
   init_requires_six_tables.2 exSeeder exSampler [] 0 (fun _ => some 0) (fun _ => some 0)
      (fun _ _ => 1 / 2) (fun _ _ _ _ => 1 / 2) (fun _ _ => 1 / 2) (1 / 2)
      (fun _ _ _ => 1 / 2) (fun _ _ => 1 / 2)⟩

/-- The corpus of the missing-word-class counterexample: one sentence
pair whose only source word is 7. -/
def cexSent : AlignedSent := ⟨[5], [7], []⟩

/-- Counterexample for C3: with a class map covering no word at all,
construction with an explicit complete probability_tables value and
iterations = 0 returns normally; no error is signalled at model
construction or training start even though corpus word 7 has no class. -/
theorem missing_word_class_cex :
    init exSeeder exSampler [cexSent] 0 (fun _ => none) (fun _ => some 0) (some exPTFull) =
      Except.ok
        ({ translation_table := fun _ _ => 1 / 2, alignment_table := fun _ _ _ _ => 1 / 2,
           fertility_table := fun _ _ => 1 / 2, p1 := 1 / 2,
           head_distortion_table := fun _ _ _ => 1 / 2,
           non_head_distortion_table := fun _ _ => 1 / 2,
           src_classes := fun _ => none, trg_classes := fun _ => some 0 }, [cexSent]) ∧
    (fun _ => (none : Option ℕ)) 7 = none ∧ 7 ∈ cexSent.mots :=
  ⟨rfl, rfl, by decide⟩

lemma getD_mem_of_lt {l : List ℕ} {n : ℕ} (h : n < l.length) : l.getD n 0 ∈ l := by
  rw [List.getD_eq_getElem?_getD, List.getElem?_eq_getElem h]
  exact List.getElem_mem h

lemma distortion_term_isSome (a : AlignmentInfo) (st : State) (j : ℕ)
    (hj : j ∈ List.range' 1 (tlen a))
    (hw : ∀ j2 ∈ List.range' 1 (tlen a), alignOf a j2 < a.src_sentence.length)
    (hs : ∀ w ∈ a.src_sentence, (st.src_classes w).isSome = true)
    (ht : ∀ w ∈ a.trg_sentence, (st.trg_classes w).isSome = true) :
    (distortion_term a st j).isSome = true := by
  have hjlen : j < a.trg_sentence.length := by
    rw [List.mem_range'] at hj
    unfold tlen at hj
    omega
  have htt := ht (a.trg_sentence.getD j 0) (getD_mem_of_lt hjlen)
  obtain ⟨tc, htc⟩ := Option.isSome_iff_exists.mp htt
  simp only [List.getD_eq_getElem?_getD] at htc
  simp only [distortion_term]
  by_cases hi : alignOf a j = 0
  · simp [hi]
  · by_cases hh : is_head_word a j = true
    · cases hpc : previous_cept a j with
      | none => simp [hi, hh, hpc, htc]
      | some p =>
        have hp := List.mem_of_getLast?_eq_some hpc
        rw [List.mem_filter, List.mem_range'] at hp
        have hplt : p < alignOf a j := by
          have := hp.1
          omega
        have hlen : p < a.src_sentence.length := lt_trans hplt (hw j hj)
        have hss := hs (a.src_sentence.getD p 0) (getD_mem_of_lt hlen)
        obtain ⟨sc, hsc⟩ := Option.isSome_iff_exists.mp hss
        simp only [List.getD_eq_getElem?_getD] at hsc
        simp [hi, hh, hpc, hsc, htc]
    · simp [hi, hh, htc]

lemma m4Loop_isSome (a : AlignmentInfo) (st : State) :
    ∀ (js : List ℕ) (prob : ℚ),
      (∀ j ∈ js, (distortion_term a st j).isSome = true) →
      (m4Loop a st js prob).isSome = true := by
  intro js
  induction js with
  | nil => intro prob _; rfl
  | cons j rest ih =>
    intro prob h
    simp only [m4Loop]
    split
    · rfl
    · split
      next heq =>
        have hj := h j (List.mem_cons_self j rest)
        rw [heq] at hj
        exact absurd hj (by simp)
      next d heq =>
        split
        · rfl
        · exact ih _ (fun j2 hj2 => h j2 (List.mem_cons_of_mem j hj2))

/-- C3 amended: word classes are not validated at construction or
training start; instead a missing class raises a fatal KeyError (none)
the moment it is needed by a distortion computation, and is never
silently defaulted; with class maps covering both sentences (and a
well-formed alignment), scoring raises no error. -/
theorem missing_word_class_amended :
    (∀ (a : AlignmentInfo) (st : State),
      (∀ j ∈ List.range' 1 (tlen a), alignOf a j < a.src_sentence.length) →
      (∀ w ∈ a.src_sentence, (st.src_classes w).isSome = true) →
      (∀ w ∈ a.trg_sentence, (st.trg_classes w).isSome = true) →
      (model4_prob_t_a_given_s a st).isSome = true) ∧
    (∀ (a : AlignmentInfo) (st : State) (j : ℕ),
      ¬ alignOf a j = 0 →
      st.trg_classes (a.trg_sentence.getD j 0) = none →
      distortion_term a st j = none) := by
  constructor
  · intro a st hw hs ht
    simp only [model4_prob_t_a_given_s]
    split
    · rfl
    · split
      · rfl
      · exact m4Loop_isSome a st _ _ (fun j hj => distortion_term_isSome a st j hj hw hs ht)
  · intro a st j hi htc
    simp only [distortion_term, hi, if_false]
    split
    · split
      · rw [htc]
      · split
        · rfl
        · rw [htc]
    · rw [htc]

/-- Witness for C3: scoring succeeds with total class maps, and a
distortion lookup with a missing target class is a raised error. -/
theorem missing_word_class_amended_witness :
    (model4_prob_t_a_given_s exAlign exState).isSome = true ∧
    distortion_term exAlign { exState with trg_classes := fun _ => none } 1 = none := by
  constructor
  · exact missing_word_class_amended.1 exAlign exState (by decide) (by decide) (by decide)
  · exact missing_word_class_amended.2 exAlign { exState with trg_classes := fun _ => none } 1
      (by decide) rfl

end IBM4
